import Mathlib

/-!
Shallow embedding of the Unscented Kalman Filter implemented in
`src/ukf.cpp` (CarND unscented-Kalman-filter project), together with
theorems checking the natural-language specification against it.

Real (`ℝ`) arithmetic models the C++ `double`/`float` computations
exactly; floating-point rounding is out of scope.  Vectors are
functions `Fin n → ℝ`, matrices are Mathlib `Matrix` values, and the
mutating C++ member functions become functions from filter state to
filter state.
-/

namespace UKFVerif

noncomputable section

open Real Matrix

/-- State dimension `n_x_ = 5` (ukf.cpp line 19). -/
def n_x : ℕ := 5

/-- Augmented state dimension `n_aug_ = n_x_ + 2` (ukf.cpp line 22). -/
def n_aug : ℕ := n_x + 2

/-- Spreading parameter `lambda_ = 3 - n_x_` (ukf.cpp line 55). -/
def lambda : ℝ := 3 - (n_x : ℝ)

/-- Process noise standard deviation, longitudinal acceleration (line 31). -/
def std_a : ℝ := 0.45

/-- Process noise standard deviation, yaw acceleration (line 34). -/
def std_yawdd : ℝ := 0.45

/-- Laser measurement noise standard deviation, first position (line 37). -/
def std_laspx : ℝ := 0.15

/-- Laser measurement noise standard deviation, second position (line 40). -/
def std_laspy : ℝ := 0.15

/-- Radar measurement noise standard deviation, radius (line 43). -/
def std_radr : ℝ := 0.3

/-- Radar measurement noise standard deviation, angle (line 46). -/
def std_radphi : ℝ := 0.03

/-- Radar measurement noise standard deviation, radius change (line 49). -/
def std_radrd : ℝ := 0.3

/-- Sigma-point weight vector `weights_` (ukf.cpp lines 58-63):
`weights_(0) = lambda_/(lambda_+n_aug_)` and
`weights_(i) = 0.5/(n_aug_+lambda_)` for `i ≥ 1`.  The C++ vector has
length `2*n_aug_+1 = 15`; indices past that are never read. -/
def weights (i : ℕ) : ℝ :=
  if i = 0 then lambda / (lambda + (n_aug : ℝ)) else 0.5 / ((n_aug : ℝ) + lambda)

/-- The loop `while (a > M_PI) a -= 2.*M_PI` used for angle wraparound
(ukf.cpp lines 188, 231, 252, 258, 271, 368). -/
def angleNormSub (x : ℝ) : ℝ :=
  if h : Real.pi < x then angleNormSub (x - 2 * Real.pi) else x
termination_by (Int.ceil ((x - Real.pi) / (2 * Real.pi))).toNat
decreasing_by
  have hpi := Real.pi_pos
  have h2 : (0:ℝ) < 2 * Real.pi := by linarith
  have key : (x - 2 * Real.pi - Real.pi) / (2 * Real.pi)
      = (x - Real.pi) / (2 * Real.pi) - 1 := by
    field_simp
    ring
  have hpos : 0 < (x - Real.pi) / (2 * Real.pi) := div_pos (by linarith) h2
  have hc : 1 ≤ Int.ceil ((x - Real.pi) / (2 * Real.pi)) := Int.ceil_pos.mpr hpos
  rw [key, Int.ceil_sub_one]
  omega

/-- The loop `while (a < -M_PI) a += 2.*M_PI` used for angle wraparound
(ukf.cpp lines 189, 232, 253, 259, 272, 369). -/
def angleNormAdd (x : ℝ) : ℝ :=
  if h : x < -Real.pi then angleNormAdd (x + 2 * Real.pi) else x
termination_by (Int.ceil ((-Real.pi - x) / (2 * Real.pi))).toNat
decreasing_by
  have hpi := Real.pi_pos
  have h2 : (0:ℝ) < 2 * Real.pi := by linarith
  have key : (-Real.pi - (x + 2 * Real.pi)) / (2 * Real.pi)
      = (-Real.pi - x) / (2 * Real.pi) - 1 := by
    field_simp
    ring
  have hpos : 0 < (-Real.pi - x) / (2 * Real.pi) := div_pos (by linarith) h2
  have hc : 1 ≤ Int.ceil ((-Real.pi - x) / (2 * Real.pi)) := Int.ceil_pos.mpr hpos
  rw [key, Int.ceil_sub_one]
  omega

/-- Both wraparound loops in sequence, exactly as every normalization
site in ukf.cpp runs them: first the subtracting loop, then the adding
loop. -/
def angleNorm (x : ℝ) : ℝ := angleNormAdd (angleNormSub x)

lemma angleNormSub_le (x : ℝ) : angleNormSub x ≤ Real.pi := by
  induction x using angleNormSub.induct with
  | case1 x h ih =>
    rw [angleNormSub, dif_pos h]
    exact ih
  | case2 x h =>
    rw [angleNormSub, dif_neg h]
    exact le_of_not_lt h

lemma angleNormSub_of_le (x : ℝ) (h : x ≤ Real.pi) : angleNormSub x = x := by
  rw [angleNormSub, dif_neg (not_lt.mpr h)]

lemma angleNormSub_shift (x : ℝ) : ∃ n : ℕ, angleNormSub x = x - 2 * Real.pi * n := by
  induction x using angleNormSub.induct with
  | case1 x h ih =>
    obtain ⟨n, hn⟩ := ih
    refine ⟨n + 1, ?_⟩
    rw [angleNormSub, dif_pos h, hn]
    push_cast
    ring
  | case2 x h =>
    refine ⟨0, ?_⟩
    rw [angleNormSub, dif_neg h]
    push_cast
    ring

lemma angleNormAdd_ge (x : ℝ) : -Real.pi ≤ angleNormAdd x := by
  induction x using angleNormAdd.induct with
  | case1 x h ih =>
    rw [angleNormAdd, dif_pos h]
    exact ih
  | case2 x h =>
    rw [angleNormAdd, dif_neg h]
    exact le_of_not_lt h

lemma angleNormAdd_of_ge (x : ℝ) (h : -Real.pi ≤ x) : angleNormAdd x = x := by
  rw [angleNormAdd, dif_neg (not_lt.mpr h)]

lemma angleNormAdd_le (x : ℝ) (hx : x ≤ Real.pi) : angleNormAdd x ≤ Real.pi := by
  induction x using angleNormAdd.induct with
  | case1 x h ih =>
    have hpi := Real.pi_pos
    rw [angleNormAdd, dif_pos h]
    exact ih (by linarith)
  | case2 x h =>
    rw [angleNormAdd, dif_neg h]
    exact hx

lemma angleNormAdd_shift (x : ℝ) : ∃ n : ℕ, angleNormAdd x = x + 2 * Real.pi * n := by
  induction x using angleNormAdd.induct with
  | case1 x h ih =>
    obtain ⟨n, hn⟩ := ih
    refine ⟨n + 1, ?_⟩
    rw [angleNormAdd, dif_pos h, hn]
    push_cast
    ring
  | case2 x h =>
    refine ⟨0, ?_⟩
    rw [angleNormAdd, dif_neg h]
    push_cast
    ring

lemma angleNorm_ge (x : ℝ) : -Real.pi ≤ angleNorm x := angleNormAdd_ge _

lemma angleNorm_le (x : ℝ) : angleNorm x ≤ Real.pi :=
  angleNormAdd_le _ (angleNormSub_le x)

lemma angleNorm_of_mem (x : ℝ) (h1 : -Real.pi ≤ x) (h2 : x ≤ Real.pi) :
    angleNorm x = x := by
  rw [angleNorm, angleNormSub_of_le x h2, angleNormAdd_of_ge x h1]

lemma angleNorm_shift (x : ℝ) : ∃ k : ℤ, angleNorm x = x + 2 * Real.pi * k := by
  obtain ⟨n, hn⟩ := angleNormSub_shift x
  obtain ⟨m, hm⟩ := angleNormAdd_shift (angleNormSub x)
  refine ⟨(m : ℤ) - (n : ℤ), ?_⟩
  rw [angleNorm, hm, hn]
  push_cast
  ring

/-- Two-argument arctangent `atan2(y, x)`, the C library function used
at ukf.cpp line 212; modelled by the argument of the complex number
`x + y·i`, which matches atan2's quadrant convention. -/
def atan2 (y x : ℝ) : ℝ := Complex.arg ⟨x, y⟩

/-- Entry `(i, j)` of the lower-triangular Cholesky factor of a 7×7
matrix, modelling Eigen's `llt().matrixL()` at ukf.cpp line 300 by the
standard Cholesky–Banachiewicz recurrence.  Indices outside the matrix
give 0. -/
def cholEntry (A : Matrix (Fin 7) (Fin 7) ℝ) (i j : ℕ) : ℝ :=
  if h : i < 7 ∧ j < 7 then
    if hij : i < j then 0
    else if hd : i = j then
      Real.sqrt (A ⟨i, h.1⟩ ⟨i, h.1⟩ -
        ∑ k ∈ (Finset.range j).attach, (cholEntry A i k.1) ^ 2)
    else
      (A ⟨i, h.1⟩ ⟨j, h.2⟩ -
        ∑ k ∈ (Finset.range j).attach, cholEntry A i k.1 * cholEntry A j k.1) /
        cholEntry A j j
  else 0
termination_by j * 8 + i
decreasing_by
  · have hk := Finset.mem_range.mp k.2
    omega
  · have hk := Finset.mem_range.mp k.2
    omega
  · have hk := Finset.mem_range.mp k.2
    omega
  · omega

/-- The CTRV position propagation `(px_p, py_p)` of one augmented sigma
point over `delta_t`, before noise is added (ukf.cpp lines 322-332),
including the `fabs(yawd) > 0.001` division guard. -/
def ctrvPxPy (delta_t : ℝ) (pt : Fin 7 → ℝ) : ℝ × ℝ :=
  if |pt 4| > 0.001 then
    (pt 0 + pt 2 / pt 4 * (Real.sin (pt 3 + pt 4 * delta_t) - Real.sin (pt 3)),
     pt 1 + pt 2 / pt 4 * (Real.cos (pt 3) - Real.cos (pt 3 + pt 4 * delta_t)))
  else
    (pt 0 + pt 2 * delta_t * Real.cos (pt 3),
     pt 1 + pt 2 * delta_t * Real.sin (pt 3))

/-- Full CTRV propagation of one augmented sigma point: position from
`ctrvPxPy`, then `v`, `yaw`, `yawd` advanced, then the process-noise
terms added, exactly as ukf.cpp lines 311-352 compute one column of
`Xsig_pred_`. -/
def ctrvStep (delta_t : ℝ) (pt : Fin 7 → ℝ) : Fin 5 → ℝ := fun r =>
  let v := pt 2
  let yaw := pt 3
  let yawd := pt 4
  let nu_a := pt 5
  let nu_yawdd := pt 6
  let delta_t_2 := delta_t * delta_t
  if (r : ℕ) = 0 then (ctrvPxPy delta_t pt).1 + 0.5 * nu_a * delta_t_2 * Real.cos yaw
  else if (r : ℕ) = 1 then (ctrvPxPy delta_t pt).2 + 0.5 * nu_a * delta_t_2 * Real.sin yaw
  else if (r : ℕ) = 2 then v + nu_a * delta_t
  else if (r : ℕ) = 3 then yaw + yawd * delta_t + 0.5 * nu_yawdd * delta_t_2
  else yawd + nu_yawdd * delta_t

/-- The radar measurement model applied to one predicted sigma point
(ukf.cpp lines 198-214): `rho`, `phi = atan2(py, px)`, and `rho_dot`
with the `fabs(c1) > 0.0001` division guard. -/
def radarMeasure (pt : Fin 5 → ℝ) : Fin 3 → ℝ := fun r =>
  let p_x := pt 0
  let p_y := pt 1
  let v := pt 2
  let yaw := pt 3
  let v1 := Real.cos yaw * v
  let v2 := Real.sin yaw * v
  let c1 := Real.sqrt (p_x * p_x + p_y * p_y)
  if (r : ℕ) = 0 then c1
  else if (r : ℕ) = 1 then atan2 p_y p_x
  else if |c1| > 0.0001 then (p_x * v1 + p_y * v2) / c1 else 0

/-- Sensor kind of a measurement.  `LASER` and `RADAR` are the two kinds
named by `MeasurementPackage`; `OTHER` stands for any further enum value,
which ukf.cpp handles in its `else` branches (lines 101-104, 146-149). -/
inductive SensorType
  | LASER
  | RADAR
  | OTHER
deriving DecidableEq

/-- A measurement record (type declared in a header outside `src/`):
sensor kind, raw values (radar uses all 3 entries, lidar the first 2),
and an integer microsecond timestamp. -/
structure MeasurementPackage where
  sensor_type : SensorType
  raw_measurements : Fin 3 → ℝ
  timestamp : ℤ

/-- The filter state: the fields of class `UKF` that ukf.cpp reads or
writes.  `is_init` models `is_initialized_` (false until the first
accepted measurement).  Noise parameters and weights are the fixed
constants above. -/
structure UKF where
  x : Fin 5 → ℝ
  P : Matrix (Fin 5) (Fin 5) ℝ
  Xsig_pred : Matrix (Fin 5) (Fin 15) ℝ
  time_us : ℤ
  is_init : Bool
  use_laser : Bool
  use_radar : Bool
  NIS_laser : ℝ
  NIS_radar : ℝ

/-- Lidar measurement matrix `H_laser_` (ukf.cpp lines 66-67), a 2×5
matrix set by `setIdentity()`: ones on the main diagonal. -/
def H_laser : Matrix (Fin 2) (Fin 5) ℝ :=
  Matrix.of fun i j => if (i : ℕ) = (j : ℕ) then 1 else 0

/-- Lidar measurement noise covariance `R_laser_` (ukf.cpp lines 70-72). -/
def R_laser : Matrix (Fin 2) (Fin 2) ℝ :=
  !![std_laspx * std_laspx, 0; 0, std_laspy * std_laspy]

/-- Radar measurement noise covariance `R_radar_` (ukf.cpp lines 75-78). -/
def R_radar : Matrix (Fin 3) (Fin 3) ℝ :=
  !![std_radr * std_radr, 0, 0;
     0, std_radphi * std_radphi, 0;
     0, 0, std_radrd * std_radrd]

/-- Normalization of component 1 (the bearing) of a 3-vector, as the
radar update does to every residual (ukf.cpp lines 231-232, 252-253,
271-272). -/
def normAt1 (v : Fin 3 → ℝ) : Fin 3 → ℝ :=
  Function.update v 1 (angleNorm (v 1))

/-- Normalization of component 3 (the heading) of a 5-vector, as done
for every state difference (ukf.cpp lines 258-259, 368-369). -/
def normAt3 (v : Fin 5 → ℝ) : Fin 5 → ℝ :=
  Function.update v 3 (angleNorm (v 3))

/-- `UKF::NIS` (ukf.cpp lines 375-378): the scalar
`(z - z_pred)ᵗ · S⁻¹ · (z - z_pred)`. -/
def NIS {m : ℕ} (z_measured z_predicted : Fin m → ℝ)
    (S_predicted : Matrix (Fin m) (Fin m) ℝ) : ℝ :=
  (fun i => z_measured i - z_predicted i) ⬝ᵥ
    S_predicted⁻¹.mulVec (fun i => z_measured i - z_predicted i)

/-- The augmented mean `x_aug` (ukf.cpp lines 286-290): the state mean
followed by two zero noise means. -/
def x_augOf (s : UKF) : Fin 7 → ℝ :=
  fun i => if h : (i : ℕ) < 5 then s.x ⟨i, h⟩ else 0

/-- The augmented covariance `P_aug` (ukf.cpp lines 293-297): the state
covariance in the top-left block and the two process-noise variances on
the remaining diagonal entries. -/
def P_augOf (s : UKF) : Matrix (Fin 7) (Fin 7) ℝ :=
  Matrix.of fun i j =>
    if h : (i : ℕ) < 5 ∧ (j : ℕ) < 5 then s.P ⟨i, h.1⟩ ⟨j, h.2⟩
    else if (i : ℕ) = 5 ∧ (j : ℕ) = 5 then std_a * std_a
    else if (i : ℕ) = 6 ∧ (j : ℕ) = 6 then std_yawdd * std_yawdd
    else 0

/-- The sigma-point column layout (ukf.cpp lines 302-308): column 0 is
the mean, column `j+1` is mean plus the `j`-th spread vector, column
`j+1+7` is mean minus it. -/
def sigmaCols (x_aug : Fin 7 → ℝ) (d : ℕ → Fin 7 → ℝ) : Matrix (Fin 7) (Fin 15) ℝ :=
  Matrix.of fun r c =>
    if (c : ℕ) = 0 then x_aug r
    else if (c : ℕ) ≤ 7 then x_aug r + d ((c : ℕ) - 1) r
    else x_aug r - d ((c : ℕ) - 1 - 7) r

/-- `UKF::GenerateAugmentedSigmaPoints` (ukf.cpp lines 284-309): the
spread vectors are `sqrt(lambda+n_aug)` times the columns of the
Cholesky factor of `P_aug`. -/
def GenerateAugmentedSigmaPoints (s : UKF) : Matrix (Fin 7) (Fin 15) ℝ :=
  sigmaCols (x_augOf s)
    (fun j r => Real.sqrt (lambda + (n_aug : ℝ)) * cholEntry (P_augOf s) (r : ℕ) j)

/-- `UKF::SigmaPointPrediction` (ukf.cpp lines 311-353): propagate every
augmented sigma-point column through the CTRV model. -/
def SigmaPointPrediction (delta_t : ℝ) (Xsig_aug : Matrix (Fin 7) (Fin 15) ℝ) :
    Matrix (Fin 5) (Fin 15) ℝ :=
  Matrix.of fun r i => ctrvStep delta_t (fun k => Xsig_aug k i) r

/-- `UKF::PredictMeanAndCovariance` (ukf.cpp lines 355-373): weighted
mean of the predicted sigma points, then the weighted sum of outer
products of heading-normalized differences. -/
def PredictMeanAndCovariance (s : UKF) : UKF :=
  let x1 : Fin 5 → ℝ := fun r => ∑ i : Fin 15, weights (i : ℕ) * s.Xsig_pred r i
  let P1 : Matrix (Fin 5) (Fin 5) ℝ :=
    ∑ i : Fin 15, weights (i : ℕ) •
      Matrix.vecMulVec (normAt3 (fun k => s.Xsig_pred k i - x1 k))
        (normAt3 (fun k => s.Xsig_pred k i - x1 k))
  { s with x := x1, P := P1 }

/-- `UKF::Prediction` (ukf.cpp lines 156-161): generate augmented sigma
points, propagate them into `Xsig_pred_`, then recombine mean and
covariance. -/
def Prediction (s : UKF) (delta_t : ℝ) : UKF :=
  let Xsig_aug := GenerateAugmentedSigmaPoints s
  PredictMeanAndCovariance { s with Xsig_pred := SigmaPointPrediction delta_t Xsig_aug }

/-- `UKF::UpdateLidar` (ukf.cpp lines 163-184): the linear Kalman update
with `H_laser_`/`R_laser_`, plus the lidar NIS side effect. -/
def UpdateLidar (s : UKF) (z : Fin 2 → ℝ) : UKF :=
  let z_pred := H_laser.mulVec s.x
  let y := fun i => z i - z_pred i
  let Ht := H_laserᵀ
  let S := H_laser * s.P * Ht + R_laser
  let Si := S⁻¹
  let PHt := s.P * Ht
  let K := PHt * Si
  { s with
    x := fun r => s.x r + K.mulVec y r,
    P := (1 - K * H_laser) * s.P,
    NIS_laser := NIS z z_pred S }

/-- The matrix `Zsig` of the radar update (ukf.cpp lines 195-214): every
predicted sigma-point column pushed through the radar measurement
model. -/
def radarZsig (s : UKF) : Matrix (Fin 3) (Fin 15) ℝ :=
  Matrix.of fun r i => radarMeasure (fun k => s.Xsig_pred k i) r

/-- The mean predicted radar measurement `z_pred` (ukf.cpp lines
216-221). -/
def radarZpred (s : UKF) : Fin 3 → ℝ :=
  fun r => ∑ i : Fin 15, weights (i : ℕ) * radarZsig s r i

/-- The radar innovation covariance `S` (ukf.cpp lines 223-238),
including the bearing normalization of every residual and the added
measurement noise `R_radar_`. -/
def radarS (s : UKF) : Matrix (Fin 3) (Fin 3) ℝ :=
  (∑ i : Fin 15, weights (i : ℕ) •
      Matrix.vecMulVec (normAt1 (fun r => radarZsig s r i - radarZpred s r))
        (normAt1 (fun r => radarZsig s r i - radarZpred s r))) + R_radar

/-- The cross-correlation matrix `Tc` (ukf.cpp lines 243-262), with both
the state-heading and measurement-bearing differences normalized. -/
def radarTc (s : UKF) : Matrix (Fin 5) (Fin 3) ℝ :=
  ∑ i : Fin 15, weights (i : ℕ) •
    Matrix.vecMulVec (normAt3 (fun k => s.Xsig_pred k i - s.x k))
      (normAt1 (fun r => radarZsig s r i - radarZpred s r))

/-- `UKF::UpdateRadar` (ukf.cpp lines 186-282).  The C++ function takes
`z` by non-const reference and normalizes `z(1)` in place (lines
188-189), so the model returns the new filter state together with the
caller's vector as left behind. -/
def UpdateRadar (s : UKF) (z : Fin 3 → ℝ) : UKF × (Fin 3 → ℝ) :=
  let z1 := Function.update z 1 (angleNorm (z 1))
  let S := radarS s
  let K := radarTc s * S⁻¹
  let z_diff := normAt1 (fun r => z1 r - radarZpred s r)
  ({ s with
      x := fun r => s.x r + K.mulVec z_diff r,
      P := s.P - K * S * Kᵀ,
      NIS_radar := NIS z1 (radarZpred s) S }, z1)

/-- `UKF::ProcessMeasurement` (ukf.cpp lines 83-154).  Returns the new
filter state together with the measurement package (whose raw vector the
radar update mutates).  The C++ constructor leaves `x_`/`P_`
uninitialized, so the pre-bootstrap values are whatever the input state
holds. -/
def ProcessMeasurement (s : UKF) (m : MeasurementPackage) : UKF × MeasurementPackage :=
  if s.is_init = false then
    match m.sensor_type with
    | SensorType.RADAR =>
      let rho := m.raw_measurements 0
      let phi := m.raw_measurements 1
      let px := rho * Real.cos phi
      let py := rho * Real.sin phi
      if px = 0 ∧ py = 0 then ({ s with x := ![px, py, 0, 0, 0] }, m)
      else ({ s with
              x := ![px, py, 0, 0, 0], P := 1,
              time_us := m.timestamp, is_init := true }, m)
    | SensorType.LASER =>
      let px := m.raw_measurements 0
      let py := m.raw_measurements 1
      if px = 0 ∧ py = 0 then ({ s with x := ![px, py, 0, 0, 0] }, m)
      else ({ s with
              x := ![px, py, 0, 0, 0], P := 1,
              time_us := m.timestamp, is_init := true }, m)
    | SensorType.OTHER => (s, m)
  else
    let dt : ℝ := ((m.timestamp - s.time_us : ℤ) : ℝ) / 1000000
    let s1 := Prediction { s with time_us := m.timestamp } dt
    match m.sensor_type with
    | SensorType.RADAR =>
      if s1.use_radar = false then (s1, m)
      else
        let p := UpdateRadar s1 m.raw_measurements
        (p.1, { m with raw_measurements := p.2 })
    | SensorType.LASER =>
      if s1.use_laser = false then (s1, m)
      else (UpdateLidar s1 (fun i => m.raw_measurements (Fin.castLE (by norm_num) i)), m)
    | SensorType.OTHER => (s1, m)

/-! ### Helper lemmas -/

lemma sigma_weight_comb (a : ℝ) (b : ℕ → ℝ) :
    ∑ i : Fin 15, weights (i : ℕ) *
      (if (i : ℕ) = 0 then a else if (i : ℕ) ≤ 7 then a + b ((i : ℕ) - 1)
       else a - b ((i : ℕ) - 1 - 7)) = a := by
  simp [Fin.sum_univ_succ, weights, lambda, n_aug, n_x]
  ring_nf

lemma sigmaCols_mean (x_aug : Fin 7 → ℝ) (d : ℕ → Fin 7 → ℝ) (r : Fin 7) :
    ∑ i : Fin 15, weights (i : ℕ) * sigmaCols x_aug d r i = x_aug r := by
  simp only [sigmaCols, Matrix.of_apply]
  exact sigma_weight_comb (x_aug r) (fun j => d j r)

lemma ctrvPxPy_zero (pt : Fin 7 → ℝ) : ctrvPxPy 0 pt = (pt 0, pt 1) := by
  rw [ctrvPxPy]
  split_ifs with h <;> simp

lemma ctrvStep_zero (pt : Fin 7 → ℝ) (r : Fin 5) :
    ctrvStep 0 pt r = pt ⟨(r : ℕ), by omega⟩ := by
  rcases r with ⟨rv, hr⟩
  interval_cases rv <;> simp [ctrvStep, ctrvPxPy_zero]

lemma vecMulVec_self_symm {n : Type*} (v : n → ℝ) :
    (Matrix.vecMulVec v v)ᵀ = Matrix.vecMulVec v v := by
  ext i j
  simp [Matrix.vecMulVec_apply, Matrix.transpose_apply, mul_comm]

lemma R_laser_symm : R_laserᵀ = R_laser := by
  rw [R_laser]
  ext i j
  fin_cases i <;> fin_cases j <;> rfl

lemma R_radar_symm : R_radarᵀ = R_radar := by
  rw [R_radar]
  ext i j
  fin_cases i <;> fin_cases j <;> rfl

lemma radarS_symm (s : UKF) : (radarS s)ᵀ = radarS s := by
  rw [radarS, Matrix.transpose_add, Matrix.transpose_sum]
  congr 1
  · exact Finset.sum_congr rfl fun i _ => by
      rw [Matrix.transpose_smul, vecMulVec_self_symm]
  · exact R_radar_symm

lemma KSKt_symm {k l : ℕ} (K : Matrix (Fin k) (Fin l) ℝ) (S : Matrix (Fin l) (Fin l) ℝ)
    (hS : Sᵀ = S) : (K * S * Kᵀ)ᵀ = K * S * Kᵀ := by
  rw [Matrix.transpose_mul, Matrix.transpose_mul, Matrix.transpose_transpose, hS,
    Matrix.mul_assoc]

lemma lidar_gain_symm (P : Matrix (Fin 5) (Fin 5) ℝ) (H : Matrix (Fin 2) (Fin 5) ℝ)
    (R : Matrix (Fin 2) (Fin 2) ℝ) (hP : Pᵀ = P) (hR : Rᵀ = R) :
    ((1 - P * Hᵀ * (H * P * Hᵀ + R)⁻¹ * H) * P)ᵀ
      = (1 - P * Hᵀ * (H * P * Hᵀ + R)⁻¹ * H) * P := by
  simp only [Matrix.sub_mul, Matrix.one_mul, Matrix.transpose_sub, Matrix.transpose_mul,
    Matrix.transpose_nonsing_inv, Matrix.transpose_transpose, Matrix.transpose_add,
    Matrix.transpose_one, hP, hR, Matrix.mul_assoc]

/-! ### Claim theorems -/

/-- C5: after construction the weight vector of length 15 satisfies
`weights[0] = lambda/(lambda+n_aug)`, `weights[i] = 1/(2*(n_aug+lambda))`
for every `i ≥ 1`, with `lambda = 3 - n` (`n = 5`, `n_aug = 7`), and the
weights sum to exactly 1. -/
theorem C5_weights_spec :
    n_x = 5 ∧ n_aug = 7 ∧ lambda = 3 - (n_x : ℝ) ∧
    weights 0 = lambda / (lambda + (n_aug : ℝ)) ∧
    (∀ i : ℕ, 1 ≤ i → weights i = 1 / (2 * ((n_aug : ℝ) + lambda))) ∧
    ∑ i : Fin 15, weights (i : ℕ) = 1 := by
  refine ⟨rfl, rfl, rfl, by simp [weights], fun i hi => ?_, ?_⟩
  · have h0 : ¬ i = 0 := by omega
    rw [weights, if_neg h0]
    norm_num [lambda, n_aug, n_x]
  · simp [Fin.sum_univ_succ, weights, lambda, n_aug, n_x]
    norm_num

/-- Witness for C5: the inner universally quantified clause evaluated at
index 3. -/
theorem C5_weights_spec_witness :
    weights 3 = 1 / (2 * ((n_aug : ℝ) + lambda)) :=
  C5_weights_spec.2.2.2.2.1 3 (by norm_num)

/-- C3: `UpdateRadar` replaces the caller's bearing component `z(1)` by
`z(1) + 2kπ` for some integer `k`, the result lying in `[-π, π]`, and
leaves `z(0)` and `z(2)` unchanged — an observable side effect on the
input vector. -/
theorem C3_updateRadar_mutates_z (s : UKF) (z : Fin 3 → ℝ) :
    ∃ k : ℤ, (UpdateRadar s z).2 1 = z 1 + 2 * Real.pi * k ∧
      -Real.pi ≤ (UpdateRadar s z).2 1 ∧ (UpdateRadar s z).2 1 ≤ Real.pi ∧
      (UpdateRadar s z).2 0 = z 0 ∧ (UpdateRadar s z).2 2 = z 2 := by
  have h2 : (UpdateRadar s z).2 = Function.update z 1 (angleNorm (z 1)) := rfl
  obtain ⟨k, hk⟩ := angleNorm_shift (z 1)
  refine ⟨k, ?_, ?_, ?_, ?_, ?_⟩ <;> rw [h2] <;> simp [Function.update_apply]
  · exact hk
  · exact angleNorm_ge _
  · exact angleNorm_le _

/-- C8 counterexample: the code's normalization is not always inside
`(-π, π]` — at input `-π` (and at any input the adding loop leaves at
exactly `-π`) the result is `-π` itself, which is not `> -π`. -/
theorem C8_angleNorm_counterexample :
    angleNorm (-Real.pi) = -Real.pi ∧ ¬ (-Real.pi < angleNorm (-Real.pi)) := by
  have hpi := Real.pi_pos
  have h : angleNorm (-Real.pi) = -Real.pi :=
    angleNorm_of_mem _ (le_refl _) (by linarith)
  exact ⟨h, by rw [h]; exact lt_irrefl _⟩

/-- C8 (amended): the normalization procedure is the identity on every
angle already in `(-π, π]`, maps `π + 0.1` to `0.1 - π`, and its result
always lies in the closed interval `[-π, π]` (the code can return
exactly `-π`, so the open lower bound of the original claim fails). -/
theorem C8_angleNorm_props (x : ℝ) :
    (-Real.pi < x → x ≤ Real.pi → angleNorm x = x) ∧
    angleNorm (Real.pi + 0.1) = 0.1 - Real.pi ∧
    -Real.pi ≤ angleNorm x ∧ angleNorm x ≤ Real.pi := by
  refine ⟨fun h1 h2 => angleNorm_of_mem x (le_of_lt h1) h2, ?_,
    angleNorm_ge x, angleNorm_le x⟩
  have h3 := Real.pi_gt_three
  have hs : angleNormSub (Real.pi + 0.1) = 0.1 - Real.pi := by
    rw [angleNormSub, dif_pos (by linarith : Real.pi < Real.pi + 0.1)]
    have e : Real.pi + 0.1 - 2 * Real.pi = 0.1 - Real.pi := by ring
    rw [e, angleNormSub_of_le]
    linarith
  rw [angleNorm, hs, angleNormAdd_of_ge]
  linarith

/-- C4: running the prediction step with `dt = 0` returns a state mean
exactly equal to the prior state mean: in exact arithmetic the weighted
recombination of the propagated sigma points reproduces `x`. -/
theorem C4_prediction_dt_zero (s : UKF) : (Prediction s 0).x = s.x := by
  funext r
  show (∑ i : Fin 15,
      weights (i : ℕ) * SigmaPointPrediction 0 (GenerateAugmentedSigmaPoints s) r i) = s.x r
  have h1 : ∀ i : Fin 15, SigmaPointPrediction 0 (GenerateAugmentedSigmaPoints s) r i
      = GenerateAugmentedSigmaPoints s ⟨(r : ℕ), by omega⟩ i := fun i => by
    simp only [SigmaPointPrediction, Matrix.of_apply]
    exact ctrvStep_zero _ r
  calc (∑ i : Fin 15,
        weights (i : ℕ) * SigmaPointPrediction 0 (GenerateAugmentedSigmaPoints s) r i)
      = ∑ i : Fin 15, weights (i : ℕ) * GenerateAugmentedSigmaPoints s ⟨(r : ℕ), by omega⟩ i :=
        Finset.sum_congr rfl (fun i _ => by rw [h1 i])
    _ = x_augOf s ⟨(r : ℕ), by omega⟩ := by
        simp only [GenerateAugmentedSigmaPoints]
        exact sigmaCols_mean _ _ _
    _ = s.x r := by simp [x_augOf]

/-- C6: for every symmetric input covariance `P` and every measurement,
the covariance produced by the lidar update and by the radar update is
exactly symmetric (in the exact-arithmetic model). -/
theorem C6_update_P_symmetric (s : UKF) (z2 : Fin 2 → ℝ) (z3 : Fin 3 → ℝ)
    (hP : s.Pᵀ = s.P) :
    ((UpdateLidar s z2).P)ᵀ = (UpdateLidar s z2).P ∧
    ((UpdateRadar s z3).1.P)ᵀ = (UpdateRadar s z3).1.P := by
  constructor
  · have hE : (UpdateLidar s z2).P
        = (1 - s.P * H_laserᵀ * (H_laser * s.P * H_laserᵀ + R_laser)⁻¹ * H_laser) * s.P :=
      rfl
    rw [hE]
    exact lidar_gain_symm s.P H_laser R_laser hP R_laser_symm
  · have hE : (UpdateRadar s z3).1.P
        = s.P - radarTc s * (radarS s)⁻¹ * radarS s * (radarTc s * (radarS s)⁻¹)ᵀ := rfl
    rw [hE, Matrix.transpose_sub, hP, KSKt_symm _ _ (radarS_symm s)]

/-- A concrete filter state used by the closed witness theorems:
identity covariance, zero mean, zero cached sigma points. -/
def ukfA : UKF :=
  { x := fun _ => 0, P := 1, Xsig_pred := Matrix.of fun _ _ => 0,
    time_us := 0, is_init := true, use_laser := true, use_radar := true,
    NIS_laser := 0, NIS_radar := 0 }

/-- Witness for C6: both updates applied to the concrete state `ukfA`,
whose identity covariance is symmetric. -/
theorem C6_update_P_symmetric_witness :
    ukfA.Pᵀ = ukfA.P ∧
    (((UpdateLidar ukfA ![0, 0]).P)ᵀ = (UpdateLidar ukfA ![0, 0]).P ∧
     ((UpdateRadar ukfA ![0, 0, 0]).1.P)ᵀ = (UpdateRadar ukfA ![0, 0, 0]).1.P) :=
  ⟨Matrix.transpose_one,
   C6_update_P_symmetric ukfA ![0, 0] ![0, 0, 0] Matrix.transpose_one⟩

/-- C10: calling the lidar update with a measurement exactly equal to
the predicted projection `(px, py)` of the current state yields a zero
innovation, leaves the state mean unchanged, and stores a lidar NIS
value of 0. -/
theorem C10_lidar_zero_innovation (s : UKF) :
    (fun i : Fin 2 => s.x (Fin.castLE (by norm_num) i) - H_laser.mulVec s.x i) = 0 ∧
    (UpdateLidar s (fun i => s.x (Fin.castLE (by norm_num) i))).x = s.x ∧
    (UpdateLidar s (fun i => s.x (Fin.castLE (by norm_num) i))).NIS_laser = 0 := by
  have hz : ∀ i : Fin 2, H_laser.mulVec s.x i = s.x (Fin.castLE (by norm_num) i) := by
    intro i
    fin_cases i <;>
      simp [H_laser, Matrix.mulVec, Matrix.dotProduct, Fin.sum_univ_five,
        Fin.castLE, Fin.mk_one, show ((3 : Fin 5) : ℕ) = 3 from rfl,
        show ((4 : Fin 5) : ℕ) = 4 from rfl]
  have hy : (fun i : Fin 2 => s.x (Fin.castLE (by norm_num) i) - H_laser.mulVec s.x i)
      = 0 := by
    funext i
    simp [hz i]
  refine ⟨hy, ?_, ?_⟩
  · have hE : (UpdateLidar s (fun i => s.x (Fin.castLE (by norm_num) i))).x
        = fun r => s.x r +
            (s.P * H_laserᵀ * (H_laser * s.P * H_laserᵀ + R_laser)⁻¹).mulVec
              (fun i => s.x (Fin.castLE (by norm_num) i) - H_laser.mulVec s.x i) r := rfl
    rw [hE]
    funext r
    rw [hy, Matrix.mulVec_zero]
    simp
  · have hE : (UpdateLidar s (fun i => s.x (Fin.castLE (by norm_num) i))).NIS_laser
        = NIS (fun i => s.x (Fin.castLE (by norm_num) i)) (H_laser.mulVec s.x)
            (H_laser * s.P * H_laserᵀ + R_laser) := rfl
    rw [hE]
    simp only [NIS]
    rw [hy]
    simp

/-- C9: both near-zero divisions are guarded with the exact thresholds:
whenever `|yawd| ≤ 1e-3` the straight-line formulas are used instead of
dividing by `yawd` (and in the division branch `yawd ≠ 0`); whenever
`rho = sqrt(px²+py²) ≤ 1e-4` the radar model substitutes `rho_dot = 0`
instead of dividing by `rho` (and in the division branch `rho ≠ 0`). -/
theorem C9_division_guards (pt : Fin 7 → ℝ) (dt : ℝ) (xc : Fin 5 → ℝ) :
    (|pt 4| ≤ 0.001 →
      ctrvPxPy dt pt = (pt 0 + pt 2 * dt * Real.cos (pt 3),
                        pt 1 + pt 2 * dt * Real.sin (pt 3))) ∧
    (|pt 4| > 0.001 → pt 4 ≠ 0) ∧
    (Real.sqrt (xc 0 * xc 0 + xc 1 * xc 1) ≤ 0.0001 → radarMeasure xc 2 = 0) ∧
    (Real.sqrt (xc 0 * xc 0 + xc 1 * xc 1) > 0.0001 →
      Real.sqrt (xc 0 * xc 0 + xc 1 * xc 1) ≠ 0) := by
  refine ⟨fun h => ?_, fun h => abs_pos.mp (lt_trans (by norm_num) h),
    fun h => ?_, fun h => ne_of_gt (lt_trans (by norm_num) h)⟩
  · rw [ctrvPxPy, if_neg (not_lt.mpr h)]
  · simp only [radarMeasure, show ((2 : Fin 3) : ℕ) = 2 from rfl]
    rw [if_neg (by norm_num), if_neg (by norm_num),
      if_neg (not_lt.mpr (by rwa [abs_of_nonneg (Real.sqrt_nonneg _)]))]

/-- Witness for C9: the guard conclusions evaluated at the all-zero
sigma point and state, where both guards select the substituted
formulas. -/
theorem C9_division_guards_witness :
    ctrvPxPy 1 (fun _ => 0) = (0, 0) ∧ radarMeasure (fun _ => 0) 2 = 0 := by
  have h1 := (C9_division_guards (fun _ => 0) 1 (fun _ => 0)).1 (by norm_num)
  have h3 := (C9_division_guards (fun _ => 0) 1 (fun _ => 0)).2.2.1
    (by norm_num [Real.sqrt_zero])
  refine ⟨?_, h3⟩
  rw [h1]
  norm_num

/-- A concrete uninitialized filter state whose (in C++: indeterminate)
pre-bootstrap mean is the all-ones vector. -/
def ukfC : UKF :=
  { x := fun _ => 1, P := 1, Xsig_pred := Matrix.of fun _ _ => 0,
    time_us := 0, is_init := false, use_laser := true, use_radar := true,
    NIS_laser := 0, NIS_radar := 0 }

/-- A measurement with an unknown sensor kind. -/
def mOther : MeasurementPackage :=
  { sensor_type := SensorType.OTHER, raw_measurements := ![0, 0, 0],
    timestamp := 1000000 }

/-- A lidar measurement at the origin. -/
def mLaserZero : MeasurementPackage :=
  { sensor_type := SensorType.LASER, raw_measurements := ![0, 0, 0],
    timestamp := 5 }

/-- C7: on the first accepted measurement, radar `(rho=5, phi=0)` gives
`x = [5,0,0,0,0]` and lidar `(px=3, py=4)` gives `x = [3,4,0,0,0]`; in
both cases `P` becomes the identity, the timestamp is recorded, the
filter becomes initialized, and no prediction or update runs (the cached
sigma points and both NIS values are untouched). -/
theorem C7_bootstrap (s : UKF) (ts : ℤ) (hinit : s.is_init = false) :
    ((ProcessMeasurement s ⟨SensorType.RADAR, ![5, 0, 0], ts⟩).1.x = ![5, 0, 0, 0, 0] ∧
     (ProcessMeasurement s ⟨SensorType.RADAR, ![5, 0, 0], ts⟩).1.P = 1 ∧
     (ProcessMeasurement s ⟨SensorType.RADAR, ![5, 0, 0], ts⟩).1.time_us = ts ∧
     (ProcessMeasurement s ⟨SensorType.RADAR, ![5, 0, 0], ts⟩).1.is_init = true ∧
     (ProcessMeasurement s ⟨SensorType.RADAR, ![5, 0, 0], ts⟩).1.Xsig_pred = s.Xsig_pred ∧
     (ProcessMeasurement s ⟨SensorType.RADAR, ![5, 0, 0], ts⟩).1.NIS_laser = s.NIS_laser ∧
     (ProcessMeasurement s ⟨SensorType.RADAR, ![5, 0, 0], ts⟩).1.NIS_radar = s.NIS_radar) ∧
    ((ProcessMeasurement s ⟨SensorType.LASER, ![3, 4, 0], ts⟩).1.x = ![3, 4, 0, 0, 0] ∧
     (ProcessMeasurement s ⟨SensorType.LASER, ![3, 4, 0], ts⟩).1.P = 1 ∧
     (ProcessMeasurement s ⟨SensorType.LASER, ![3, 4, 0], ts⟩).1.time_us = ts ∧
     (ProcessMeasurement s ⟨SensorType.LASER, ![3, 4, 0], ts⟩).1.is_init = true ∧
     (ProcessMeasurement s ⟨SensorType.LASER, ![3, 4, 0], ts⟩).1.Xsig_pred = s.Xsig_pred ∧
     (ProcessMeasurement s ⟨SensorType.LASER, ![3, 4, 0], ts⟩).1.NIS_laser = s.NIS_laser ∧
     (ProcessMeasurement s ⟨SensorType.LASER, ![3, 4, 0], ts⟩).1.NIS_radar = s.NIS_radar) := by
  constructor <;>
    refine ⟨?_, ?_, ?_, ?_, ?_, ?_, ?_⟩ <;>
      simp [ProcessMeasurement, hinit]

/-- Witness for C7: the bootstrap theorem applied to the concrete
uninitialized state `ukfC` at timestamp 42. -/
theorem C7_bootstrap_witness :
    ((ProcessMeasurement ukfC ⟨SensorType.RADAR, ![5, 0, 0], 42⟩).1.x = ![5, 0, 0, 0, 0] ∧
     (ProcessMeasurement ukfC ⟨SensorType.RADAR, ![5, 0, 0], 42⟩).1.P = 1 ∧
     (ProcessMeasurement ukfC ⟨SensorType.RADAR, ![5, 0, 0], 42⟩).1.time_us = 42 ∧
     (ProcessMeasurement ukfC ⟨SensorType.RADAR, ![5, 0, 0], 42⟩).1.is_init = true ∧
     (ProcessMeasurement ukfC ⟨SensorType.RADAR, ![5, 0, 0], 42⟩).1.Xsig_pred = ukfC.Xsig_pred ∧
     (ProcessMeasurement ukfC ⟨SensorType.RADAR, ![5, 0, 0], 42⟩).1.NIS_laser = ukfC.NIS_laser ∧
     (ProcessMeasurement ukfC ⟨SensorType.RADAR, ![5, 0, 0], 42⟩).1.NIS_radar = ukfC.NIS_radar) ∧
    ((ProcessMeasurement ukfC ⟨SensorType.LASER, ![3, 4, 0], 42⟩).1.x = ![3, 4, 0, 0, 0] ∧
     (ProcessMeasurement ukfC ⟨SensorType.LASER, ![3, 4, 0], 42⟩).1.P = 1 ∧
     (ProcessMeasurement ukfC ⟨SensorType.LASER, ![3, 4, 0], 42⟩).1.time_us = 42 ∧
     (ProcessMeasurement ukfC ⟨SensorType.LASER, ![3, 4, 0], 42⟩).1.is_init = true ∧
     (ProcessMeasurement ukfC ⟨SensorType.LASER, ![3, 4, 0], 42⟩).1.Xsig_pred = ukfC.Xsig_pred ∧
     (ProcessMeasurement ukfC ⟨SensorType.LASER, ![3, 4, 0], 42⟩).1.NIS_laser = ukfC.NIS_laser ∧
     (ProcessMeasurement ukfC ⟨SensorType.LASER, ![3, 4, 0], 42⟩).1.NIS_radar = ukfC.NIS_radar) :=
  C7_bootstrap ukfC 42 rfl

/-- C1 counterexample: after initialization, a measurement with an
unknown sensor kind is *not* skipped without state mutation — the stored
timestamp changes (the prediction step also runs first). -/
theorem C1_unknown_counterexample :
    (ProcessMeasurement ukfA mOther).1.time_us ≠ ukfA.time_us := by
  show (1000000 : ℤ) ≠ 0
  norm_num

/-- C1 (amended): for a measurement with unknown sensor kind processed
after initialization, the update step is skipped, but the stored
timestamp is first set to the measurement's timestamp and the prediction
step runs on the state, mutating `x`, `P` and the cached predicted sigma
points; the measurement itself is returned unchanged. -/
theorem C1_unknown_skips_update_only (s : UKF) (m : MeasurementPackage)
    (hinit : s.is_init = true) (hsen : m.sensor_type = SensorType.OTHER) :
    ProcessMeasurement s m
      = (Prediction { s with time_us := m.timestamp }
          (((m.timestamp - s.time_us : ℤ) : ℝ) / 1000000), m) := by
  simp [ProcessMeasurement, hinit, hsen]

/-- Witness for C1: the amended theorem at the concrete initialized
state `ukfA` and unknown-kind measurement `mOther`. -/
theorem C1_unknown_skips_update_only_witness :
    ProcessMeasurement ukfA mOther
      = (Prediction { ukfA with time_us := mOther.timestamp }
          (((mOther.timestamp - ukfA.time_us : ℤ) : ℝ) / 1000000), mOther) :=
  C1_unknown_skips_update_only ukfA mOther rfl rfl

/-- C2 counterexample: a degenerate first measurement at the origin does
*not* leave `x` unchanged — the code overwrites `x_` with the degenerate
position before the guard returns. -/
theorem C2_degenerate_counterexample :
    (ProcessMeasurement ukfC mLaserZero).1.x ≠ ukfC.x := by
  intro hcontra
  have h : (ProcessMeasurement ukfC mLaserZero).1.x = ![0, 0, 0, 0, 0] := by
    simp [ProcessMeasurement, ukfC, mLaserZero]
  rw [h] at hcontra
  have h0 := congrFun hcontra 0
  simp [ukfC] at h0

/-- C2 (amended): a first measurement whose derived position is exactly
`(0,0)` is rejected: the filter remains uninitialized and `P`, the
timestamp, the cached sigma points and both NIS values are unchanged —
but the state vector `x` has already been overwritten with the
degenerate `[0,0,0,0,0]`. -/
theorem C2_degenerate_bootstrap (s : UKF) (m : MeasurementPackage)
    (hinit : s.is_init = false)
    (hdeg : (m.sensor_type = SensorType.LASER ∧ m.raw_measurements 0 = 0 ∧
             m.raw_measurements 1 = 0) ∨
            (m.sensor_type = SensorType.RADAR ∧ m.raw_measurements 0 = 0)) :
    ProcessMeasurement s m = ({ s with x := ![0, 0, 0, 0, 0] }, m) := by
  rcases hdeg with ⟨hs, h0, h1⟩ | ⟨hs, h0⟩
  · simp [ProcessMeasurement, hinit, hs, h0, h1]
  · simp [ProcessMeasurement, hinit, hs, h0]

/-- Witness for C2: the amended theorem at the concrete uninitialized
state `ukfC` and the origin lidar measurement. -/
theorem C2_degenerate_bootstrap_witness :
    ProcessMeasurement ukfC mLaserZero = ({ ukfC with x := ![0, 0, 0, 0, 0] }, mLaserZero) :=
  C2_degenerate_bootstrap ukfC mLaserZero rfl
    (Or.inl ⟨rfl, by simp [mLaserZero], by simp [mLaserZero]⟩)

/-- Witness for C8: the amended theorem applied at the concrete angle 1,
which is already normalized. -/
theorem C8_angleNorm_props_witness :
    angleNorm 1 = 1 ∧ -Real.pi ≤ angleNorm 1 ∧ angleNorm 1 ≤ Real.pi := by
  have h3 := Real.pi_gt_three
  exact ⟨(C8_angleNorm_props 1).1 (by linarith) (by linarith),
    (C8_angleNorm_props 1).2.2⟩

end

end UKFVerif
